import Mathlib

/-!
# Verification of the Medmaestro Gmail agent record/merge/classification core

Shallow embedding of the decision logic of the repository:

* `gmail_service.py` — `parse_medical_subject` (regex cascade with heuristic fallback),
* `Essential Files/gmail_to_mongo.py` — `extract_clinical_interpretation`,
  `determine_test_type`, `handle_duplicate_record`, `process_pdf_attachment`,
* `Essential Files/models.py` — `MedicalRecord.create_or_update`.

Python strings are modelled as `String`/`List Char`; the MongoDB collection of
medical records is modelled as an insertion-ordered `List StoredRecord`
(`find_one` takes the first record matching the key, `update_one` by `_id`
replaces that record in place, `insert_one` appends).  Python's `re.search`
with `re.IGNORECASE` is modelled by a small fuel-based backtracking
regular-expression engine over `List Char`, with the source's patterns
transcribed as explicit syntax trees.
-/

set_option maxRecDepth 20000

namespace Medmaestro

/-- ASCII lower-casing of one character, as Python `str.lower` acts on ASCII. -/
def asciiLower (c : Char) : Char :=
  if 'A' ≤ c ∧ c ≤ 'Z' then Char.ofNat (c.toNat + 32) else c

/-- ASCII upper-casing of one character, as Python `str.upper` acts on ASCII. -/
def asciiUpper (c : Char) : Char :=
  if 'a' ≤ c ∧ c ≤ 'z' then Char.ofNat (c.toNat - 32) else c

/-- Python `str.lower` on ASCII text. -/
def pyLower (l : List Char) : List Char := l.map asciiLower

/-- Python `str.upper` on ASCII text. -/
def pyUpper (l : List Char) : List Char := l.map asciiUpper

/-- The characters Python `str.strip()` (and `\s` in `re`) treat as whitespace (ASCII). -/
def isPyWs (c : Char) : Bool :=
  c = ' ' || c = '\t' || c = '\n' || c = '\r' || c = '\x0b' || c = '\x0c'

/-- Python `str.strip()` (no argument): drop whitespace from both ends. -/
def pyStrip (l : List Char) : List Char :=
  ((l.dropWhile isPyWs).reverse.dropWhile isPyWs).reverse

/-- Python `str.strip(chars)`: drop any of the given characters from both ends. -/
def stripSet (cs : List Char) (l : List Char) : List Char :=
  ((l.dropWhile (cs.contains ·)).reverse.dropWhile (cs.contains ·)).reverse

/-- `startsWithL needle hay` : `needle` is an initial segment of `hay`. -/
def startsWithL : List Char → List Char → Bool
  | [], _ => true
  | _ :: _, [] => false
  | a :: as, b :: bs => a == b && startsWithL as bs

/-- First index at which `needle` occurs inside the list, if any
(Python `str.find` without the `-1` encoding). -/
def findSubIdx? (needle : List Char) : List Char → Option Nat
  | [] => if startsWithL needle [] then some 0 else none
  | c :: t =>
    if startsWithL needle (c :: t) then some 0
    else (findSubIdx? needle t).map (· + 1)

/-- Python `needle in hay` substring test. -/
def containsSub (needle hay : List Char) : Bool :=
  (findSubIdx? needle hay).isSome

/-- Python `hay.find(needle)` : index of first occurrence, `-1` if absent. -/
def pyFind (hay needle : List Char) : Int :=
  match findSubIdx? needle hay with
  | some i => (i : Int)
  | none => -1

/-- Normalization of one Python slice endpoint: negative indices count from the
end and everything is clamped into `[0, len]`. -/
def pySliceIdx (len : Nat) (i : Int) : Nat :=
  if i < 0 then (i + len).toNat else min i.toNat len

/-- Python slice `s[a:b]`. -/
def pySlice (s : List Char) (a b : Int) : List Char :=
  let a' := pySliceIdx s.length a
  let b' := pySliceIdx s.length b
  (s.drop a').take (b' - a')

/-- Helper for `pySplitWs`: accumulates the current word (reversed). -/
def splitWsAux : List Char → List Char → List (List Char)
  | [], acc => if acc = [] then [] else [acc.reverse]
  | c :: rest, acc =>
    if isPyWs c then
      if acc = [] then splitWsAux rest []
      else acc.reverse :: splitWsAux rest []
    else splitWsAux rest (c :: acc)

/-- Python `str.split()` with no argument: split on whitespace runs,
discarding empty pieces. -/
def pySplitWs (s : List Char) : List (List Char) :=
  splitWsAux s []

/-!
## A small regular-expression engine

Just enough of Python `re` to embed the source's patterns: literal characters,
character classes (with ranges and negation), `.`, sequencing, greedy and lazy
`*` (from which `+` is derived), and numbered capture groups.  `re.IGNORECASE`
is the `ci` flag: literals compare case-insensitively and classes accept a
character if the class contains it or either of its case variants.
-/

/-- Regular-expression syntax trees. `clsR neg ranges singles` is a character
class; `starR greedy r` is `r*` (greedy) or `r*?` (lazy); `grpR i r` is the
`i`-th capture group. -/
inductive RE where
  | epsR : RE
  | chR : Char → RE
  | clsR : Bool → List (Char × Char) → List Char → RE
  | dotR : RE
  | seqR : RE → RE → RE
  | starR : Bool → RE → RE
  | grpR : Nat → RE → RE
deriving Repr, DecidableEq

/-- Membership of a character in a class body (ranges plus singletons). -/
def inCls (ranges : List (Char × Char)) (singles : List Char) (c : Char) : Bool :=
  ranges.any (fun p => decide (p.1 ≤ c) && decide (c ≤ p.2)) || singles.contains c

/-- Character-class match; under `ci` a character also matches via its case
variants, and `neg` complements the class. -/
def clsMatch (ci neg : Bool) (ranges : List (Char × Char)) (singles : List Char)
    (c : Char) : Bool :=
  let base := inCls ranges singles c ||
    (ci && (inCls ranges singles (asciiLower c) || inCls ranges singles (asciiUpper c)))
  if neg then !base else base

/-- Literal-character comparison, case-insensitively when `ci` is set. -/
def charEqCi (ci : Bool) (a b : Char) : Bool :=
  if ci then asciiLower a == asciiLower b else a == b

/-- Capture-group store: group index paired with the captured text
(the head entry for an index is its most recent capture). -/
abbrev Caps := List (Nat × List Char)

/-- Captured text of group `i` (empty if the group never matched). -/
def capGet (caps : Caps) (i : Nat) : List Char :=
  match caps.find? (fun p => p.1 == i) with
  | some p => p.2
  | none => []

/-- Backtracking matcher in continuation style.  `reM ci fuel r s caps k`
tries to match `r` against a front segment of `s`; on each candidate split it
calls `k` with the remaining input and updated captures, backtracking when `k`
fails.  Greedy stars try the longer extension first, lazy stars the shorter;
star bodies must consume input, mirroring the terminating patterns used by the
source.  The fuel only bounds recursion depth and is chosen large enough. -/
def reM (ci : Bool) : Nat → RE → List Char → Caps →
    (List Char → Caps → Option (List Char × Caps)) → Option (List Char × Caps)
  | 0, _, _, _, _ => none
  | Nat.succ fuel, re, s, caps, k =>
    match re with
    | .epsR => k s caps
    | .chR c =>
      match s with
      | [] => none
      | x :: rest => if charEqCi ci c x then k rest caps else none
    | .clsR neg rg sg =>
      match s with
      | [] => none
      | x :: rest => if clsMatch ci neg rg sg x then k rest caps else none
    | .dotR =>
      match s with
      | [] => none
      | x :: rest => if x = '\n' then none else k rest caps
    | .seqR a b =>
      reM ci fuel a s caps (fun s2 caps2 => reM ci fuel b s2 caps2 k)
    | .starR g r =>
      if g then
        match reM ci fuel r s caps (fun s2 caps2 =>
            if s2.length < s.length then reM ci fuel (.starR g r) s2 caps2 k
            else none) with
        | some res => some res
        | none => k s caps
      else
        match k s caps with
        | some res => some res
        | none =>
          reM ci fuel r s caps (fun s2 caps2 =>
            if s2.length < s.length then reM ci fuel (.starR g r) s2 caps2 k
            else none)
    | .grpR i r =>
      reM ci fuel r s caps (fun s2 caps2 =>
        k s2 ((i, s.take (s.length - s2.length)) :: caps2))

/-- `r+` (greedy or lazy) as `r` followed by `r*`. -/
def plusR (g : Bool) (r : RE) : RE := .seqR r (.starR g r)

/-- A literal string as a sequence of literal characters. -/
def litR (s : String) : RE := s.data.foldr (fun c r => .seqR (.chR c) r) .epsR

/-- Right-nested sequencing of a list of expressions. -/
def seqList (l : List RE) : RE := l.foldr .seqR .epsR

/-- Result of `re.search`: start index, matched text, captures. -/
structure MatchRes where
  start : Nat
  matched : List Char
  caps : Caps
deriving Repr, DecidableEq

/-- Fuel budget for matching at one position (generous; see `reM`). -/
def reFuel (s : List Char) : Nat := 400 + 20 * s.length

/-- Try to match `r` at the very front of `s`. -/
def reTry (ci : Bool) (r : RE) (s : List Char) : Option (List Char × Caps) :=
  reM ci (reFuel s) r s [] (fun rest caps => some (rest, caps))

/-- Scan successive start positions; first (leftmost) successful one wins. -/
def reSearchAux (ci : Bool) (r : RE) : List Char → Nat → Option MatchRes
  | s, idx =>
    match reTry ci r s with
    | some (rest, caps) => some ⟨idx, s.take (s.length - rest.length), caps⟩
    | none =>
      match s with
      | [] => none
      | _ :: t => reSearchAux ci r t (idx + 1)

/-- Python `re.search(r, s)` (leftmost match). -/
def reSearch (ci : Bool) (r : RE) (s : List Char) : Option MatchRes :=
  reSearchAux ci r s 0

/-!
## The source's patterns

All searches in the embedded functions use `re.IGNORECASE`, hence `ci = true`.
-/

/-- Python `\s` (ASCII). -/
def wsChars : List Char := [' ', '\t', '\n', '\r', '\x0b', '\x0c']

/-- Class `\s`. -/
def wsCls : RE := .clsR false [] wsChars

/-- Class `[A-Z0-9]`. -/
def upAlnumCls : RE := .clsR false [('A', 'Z'), ('0', '9')] []

/-- Class `[^|]`. -/
def notPipeCls : RE := .clsR true [] ['|']

/-- Class `[^-]`. -/
def notDashCls : RE := .clsR true [] ['-']

/-- Class `[A-Za-z\s]`. -/
def alphaWsCls : RE := .clsR false [('A', 'Z'), ('a', 'z')] wsChars

/-- Class `[:\s]`. -/
def colonWsCls : RE := .clsR false [] (':' :: wsChars)

/-- `gmail_service.py` pattern 1:
`Request\s+ID:\s*([A-Z0-9]+).*?Test:\s*([^|]+).*?Patient:\s*([^|]+)`. -/
def pattern1 : RE := seqList [litR "Request", plusR true wsCls, litR "ID:",
  .starR true wsCls, .grpR 1 (plusR true upAlnumCls), .starR false .dotR,
  litR "Test:", .starR true wsCls, .grpR 2 (plusR true notPipeCls),
  .starR false .dotR, litR "Patient:", .starR true wsCls,
  .grpR 3 (plusR true notPipeCls)]

/-- `gmail_service.py` pattern 2: `(REQ[A-Z0-9]+)\s*-\s*([^-]+)\s*-\s*(.+)`. -/
def pattern2 : RE := seqList [.grpR 1 (.seqR (litR "REQ") (plusR true upAlnumCls)),
  .starR true wsCls, .chR '-', .starR true wsCls, .grpR 2 (plusR true notDashCls),
  .starR true wsCls, .chR '-', .starR true wsCls, .grpR 3 (plusR true .dotR)]

/-- `gmail_service.py` pattern 3:
`Request\s+(REQ[A-Z0-9]+)\s+(.+?)\s+for\s+Patient\s+(.+)`. -/
def pattern3 : RE := seqList [litR "Request", plusR true wsCls,
  .grpR 1 (.seqR (litR "REQ") (plusR true upAlnumCls)), plusR true wsCls,
  .grpR 2 (plusR false .dotR), plusR true wsCls, litR "for", plusR true wsCls,
  litR "Patient", plusR true wsCls, .grpR 3 (plusR true .dotR)]

/-- Fallback request-id pattern: `REQ[A-Z0-9]+`. -/
def reqPat : RE := .seqR (litR "REQ") (plusR true upAlnumCls)

/-- Fallback patient pattern: `Patient[:\s]+([A-Za-z\s]+)`. -/
def patientPat : RE := seqList [litR "Patient", plusR true colonWsCls,
  .grpR 1 (plusR true alphaWsCls)]

/-- `gmail_to_mongo.py` marker pattern: `clinical\s+interpretation[:\s]*`. -/
def markerPat : RE := seqList [litR "clinical", plusR true wsCls,
  litR "interpretation", .starR true colonWsCls]

/-!
## `GmailService.parse_medical_subject` (gmail_service.py)
-/

/-- The transient parsed-subject triple. -/
structure ParsedSubject where
  request_id : String
  test_type : String
  patient_name : String
deriving Repr, DecidableEq

/-- One step of the cascade for patterns 1–3:
on a match, return `group(k).strip()` for the three groups. -/
def tryPattern (p : RE) (subject : List Char) : Option ParsedSubject :=
  (reSearch true p subject).map (fun m =>
    ⟨⟨pyStrip (capGet m.caps 1)⟩, ⟨pyStrip (capGet m.caps 2)⟩,
      ⟨pyStrip (capGet m.caps 3)⟩⟩)

/-- Pattern 4 of `parse_medical_subject`: the heuristic fallback. -/
def fallbackParse (subject : List Char) : Option ParsedSubject :=
  match reSearch true reqPat subject with
  | none => none
  | some rm =>
    let request_id := rm.matched
    let patient_match := reSearch true patientPat subject
    let words := pySplitWs subject
    let patient_name : List Char :=
      match patient_match with
      | some pm => pyStrip (capGet pm.caps 1)
      | none =>
        if 3 ≤ words.length then
          List.intercalate [' '] (words.drop (words.length - 2))
        else "Unknown Patient".data
    let test_start : Int := pyFind subject request_id + request_id.length
    let test_type : List Char :=
      match patient_match with
      | some pm => stripSet [' ', '-', '|'] (pySlice subject test_start (pm.start : Int))
      | none =>
        let req_index := (words.findIdx? (fun w => containsSub "REQ".data (pyUpper w))).getD 0
        if req_index + 1 < words.length then
          List.intercalate [' ']
            ((words.drop (req_index + 1)).take (words.length - 2 - (req_index + 1)))
        else "Unknown Test".data
    if test_type ≠ [] then some ⟨⟨request_id⟩, ⟨test_type⟩, ⟨patient_name⟩⟩
    else none

/-- `parse_medical_subject`: ordered cascade of patterns 1–3 and the fallback;
`none` means the email is treated as non-medical. -/
def parse_medical_subject (subject : String) : Option ParsedSubject :=
  match tryPattern pattern1 subject.data with
  | some r => some r
  | none =>
    match tryPattern pattern2 subject.data with
    | some r => some r
    | none =>
      match tryPattern pattern3 subject.data with
      | some r => some r
      | none => fallbackParse subject.data

/-!
## `ClinicalTextProcessor.extract_clinical_interpretation` (gmail_to_mongo.py)
-/

/-- The dict returned by `extract_clinical_interpretation`.  `full_text` is the
input object unchanged, so it is `Option String` to reflect that a `None`
input flows through (`full_text: text`). -/
structure ClinicalResult where
  clinical_interpretation : String
  test_summary : String
  full_text : Option String
deriving Repr, DecidableEq

/-- `extract_clinical_interpretation(text)`: on a falsy input return empty
fields with `full_text = text`; otherwise search for the marker
`clinical\s+interpretation[:\s]*` (case-insensitively); if found, both text
fields are the stripped suffix after the match; if not, the interpretation is
the raw text (unstripped) and the summary is the stripped raw text.  The
returned value carries no success/fallback flag (the source only logs). -/
def extract_clinical_interpretation (text : Option String) : ClinicalResult :=
  match text with
  | none => ⟨"", "", none⟩
  | some t =>
    if t.data = [] then ⟨"", "", some t⟩
    else
      match reSearch true markerPat t.data with
      | some m =>
        let interp := pyStrip (t.data.drop (m.start + m.matched.length))
        ⟨⟨interp⟩, ⟨pyStrip interp⟩, some t⟩
      | none => ⟨t, ⟨pyStrip t.data⟩, some t⟩

/-!
## `GmailToMongoProcessor.determine_test_type` (gmail_to_mongo.py)
-/

/-- Condition "`'blood' in filename_lower or 'lab' in filename_lower or
'hematology' in filename_lower`". -/
def fileBlood (filename : String) : Bool :=
  containsSub "blood".data (pyLower filename.data) ||
  containsSub "lab".data (pyLower filename.data) ||
  containsSub "hematology".data (pyLower filename.data)

/-- Condition "`'ct' in filename_lower or 'scan' in filename_lower or
'radiology' in filename_lower`". -/
def fileCT (filename : String) : Bool :=
  containsSub "ct".data (pyLower filename.data) ||
  containsSub "scan".data (pyLower filename.data) ||
  containsSub "radiology".data (pyLower filename.data)

/-- Condition "`'blood' in test_type_lower`". -/
def typeBlood (test_type : String) : Bool :=
  containsSub "blood".data (pyLower test_type.data)

/-- Condition "`'ct' in test_type_lower`". -/
def typeCT (test_type : String) : Bool :=
  containsSub "ct".data (pyLower test_type.data)

/-- `determine_test_type(filename, test_type)`: the filename is inspected
first; only when it matches neither group is the declared type consulted. -/
def determine_test_type (filename test_type : String) : String :=
  if fileBlood filename then "Blood Work"
  else if fileCT filename then "CT Scan"
  else if typeBlood test_type then "Blood Work"
  else if typeCT test_type then "CT Scan"
  else "Unknown"

/-!
## The record store (models.py) and the processing pipeline
-/

/-- One entry of a record's `pdf_files` array (the fields the core logic
reads; the GridFS handle and wall-clock timestamp are external). -/
structure PdfFileEntry where
  filename : String
  email_message_id : String
  test_summary : String
  test_type : String
deriving Repr, DecidableEq

/-- A document of the `medical_records` collection. -/
structure StoredRecord where
  request_id : String
  patient_name : String
  test_type : String
  extracted_text : String
  test_summary : String
  pdf_files : List PdfFileEntry
  email_message_ids : List String
  needs_llm_analysis : Bool
deriving Repr, DecidableEq

/-- The per-document inputs of one `create_or_update` call
(`pdf_content` is opaque binary handled by GridFS and is omitted). -/
structure Submission where
  request_id : String
  patient_name : String
  test_type : String
  extracted_text : String
  email_message_id : String
  original_filename : String
  test_summary : String
deriving Repr, DecidableEq

/-- The dict returned by `create_or_update` (minus the Mongo object id). -/
structure MergeResult where
  action : String
  is_duplicate : Bool
  collated_text : String
deriving Repr, DecidableEq

/-- The identity-key filter `{"request_id": rid, "patient_name": pname}`. -/
def keyMatch (r : StoredRecord) (rid pname : String) : Bool :=
  r.request_id == rid && r.patient_name == pname

/-- `collection.find_one` on the identity key: first matching record. -/
def findRecord (st : List StoredRecord) (rid pname : String) : Option StoredRecord :=
  st.find? (fun r => keyMatch r rid pname)

/-- The literal separator used when collating `extracted_text`. -/
def docSep : String := "\n\n--- NEW DOCUMENT ---\n\n"

/-- The `pdf_files` entry pushed for one submission. -/
def subEntry (sub : Submission) : PdfFileEntry :=
  ⟨sub.original_filename, sub.email_message_id, sub.test_summary, sub.test_type⟩

/-- The update branch of `create_or_update`: collate text, combine summaries
(only when the incoming summary is non-empty), overwrite `test_type`, push the
new sub-document, flag for analysis. -/
def mergedRecord (r : StoredRecord) (sub : Submission) : StoredRecord :=
  { r with
    extracted_text := r.extracted_text ++ docSep ++ sub.extracted_text
    test_summary :=
      if sub.test_summary ≠ "" then
        if r.test_summary ≠ "" then r.test_summary ++ " | " ++ sub.test_summary
        else sub.test_summary
      else r.test_summary
    test_type := sub.test_type
    pdf_files := r.pdf_files ++ [subEntry sub]
    email_message_ids := r.email_message_ids ++ [sub.email_message_id]
    needs_llm_analysis := true }

/-- The create branch of `create_or_update`. -/
def newRecord (sub : Submission) : StoredRecord :=
  ⟨sub.request_id, sub.patient_name, sub.test_type, sub.extracted_text,
    sub.test_summary, [subEntry sub], [sub.email_message_id], false⟩

/-- `update_one` on the found record's `_id`: replace the first record
matching the key in place. -/
def replaceFirst (st : List StoredRecord) (rid pname : String) (r' : StoredRecord) :
    List StoredRecord :=
  match st with
  | [] => []
  | r :: rest =>
    if keyMatch r rid pname then r' :: rest
    else r :: replaceFirst rest rid pname r'

/-- `MedicalRecord.create_or_update`: look up the key; merge into the existing
record or insert a new one; report `action` / `is_duplicate` / collated text. -/
def create_or_update (st : List StoredRecord) (sub : Submission) :
    List StoredRecord × MergeResult :=
  match findRecord st sub.request_id sub.patient_name with
  | some existing =>
    (replaceFirst st sub.request_id sub.patient_name (mergedRecord existing sub),
      ⟨"updated", true, existing.extracted_text ++ docSep ++ sub.extracted_text⟩)
  | none =>
    (st ++ [newRecord sub], ⟨"created", false, sub.extracted_text⟩)

/-- The manual `update_one({"_id": record_id}, {"$set": {"test_summary": ...}})`
that `process_pdf_attachment` performs right after `create_or_update`. -/
def setSummaryFirst (st : List StoredRecord) (rid pname summary : String) :
    List StoredRecord :=
  match st with
  | [] => []
  | r :: rest =>
    if keyMatch r rid pname then { r with test_summary := summary } :: rest
    else r :: setSummaryFirst rest rid pname summary

/-- The record-store effect of `GmailToMongoProcessor.process_pdf_attachment`
for one successfully extracted document: `create_or_update`, then the manual
overwrite of the record's `test_summary` with this document's summary. -/
def process_pdf_attachment (st : List StoredRecord) (sub : Submission) :
    List StoredRecord × MergeResult :=
  let res := create_or_update st sub
  (setSummaryFirst res.1 sub.request_id sub.patient_name sub.test_summary, res.2)

/-- A batch of consecutive `create_or_update` calls, collecting the returned
dicts in order. -/
def runSubs (st : List StoredRecord) : List Submission →
    List StoredRecord × List MergeResult
  | [] => (st, [])
  | sub :: rest =>
    let step := create_or_update st sub
    let next := runSubs step.1 rest
    (next.1, step.2 :: next.2)

/-- Arrival-ordered join of document texts by the literal separator
(the spec's description of accumulated `clinicalText`). -/
def joinTexts : List String → String
  | [] => ""
  | [t] => t
  | t :: t2 :: rest => t ++ docSep ++ joinTexts (t2 :: rest)

/-!
## `GmailToMongoProcessor.handle_duplicate_record` (gmail_to_mongo.py)

Modelled on the record's `pdf_files` array: classify every sub-document,
partition into Blood Work / CT Scan groups, and emit the pair of
representative summaries exactly when both groups are non-empty
(`blood_records[0]` and `ct_records[0]`).
-/

/-- The completion gate: `some (blood_summary, ct_summary)` iff both a Blood
Work and a CT Scan sub-document are present, each summary taken from the first
entry of its group. -/
def handle_duplicate_record (pdf_files : List PdfFileEntry) :
    Option (String × String) :=
  let test_records := pdf_files.map (fun p =>
    (determine_test_type p.filename p.test_type, p.test_summary, p.filename))
  let blood_records := test_records.filter (fun r => r.1 == "Blood Work")
  let ct_records := test_records.filter (fun r => r.1 == "CT Scan")
  match blood_records, ct_records with
  | b :: _, c :: _ => some (b.2.1, c.2.1)
  | _, _ => none

/-!
## Helper lemmas about the record store
-/

theorem keyMatch_iff (r : StoredRecord) (rid pname : String) :
    keyMatch r rid pname = true ↔ r.request_id = rid ∧ r.patient_name = pname := by
  simp [keyMatch]

theorem keyMatch_mergedRecord (r : StoredRecord) (sub : Submission) (rid pname : String) :
    keyMatch (mergedRecord r sub) rid pname = keyMatch r rid pname := rfl

theorem keyMatch_setSummary (r : StoredRecord) (v rid pname : String) :
    keyMatch { r with test_summary := v } rid pname = keyMatch r rid pname := rfl

theorem findRecord_some {st : List StoredRecord} {rid pname : String} {r : StoredRecord}
    (h : findRecord st rid pname = some r) : keyMatch r rid pname = true :=
  List.find?_some (p := fun x => keyMatch x rid pname) (l := st) h

theorem findRecord_cons_pos {a : StoredRecord} {rid pname : String} (t : List StoredRecord)
    (ha : keyMatch a rid pname = true) :
    findRecord (a :: t) rid pname = some a :=
  List.find?_cons_of_pos t ha

theorem findRecord_cons_neg {a : StoredRecord} {rid pname : String} (t : List StoredRecord)
    (ha : keyMatch a rid pname = false) :
    findRecord (a :: t) rid pname = findRecord t rid pname :=
  List.find?_cons_of_neg t (by simp [ha])

theorem findRecord_append_none {st : List StoredRecord} {rid pname : String}
    (r : StoredRecord) (h : findRecord st rid pname = none) :
    findRecord (st ++ [r]) rid pname =
      if keyMatch r rid pname then some r else none := by
  induction st with
  | nil =>
    cases hk : keyMatch r rid pname with
    | true => simpa [hk] using findRecord_cons_pos [] hk
    | false =>
      simp only [List.nil_append, hk, Bool.false_eq_true, if_false]
      rw [findRecord_cons_neg [] hk]; rfl
  | cons a t ih =>
    cases ha : keyMatch a rid pname with
    | true =>
      rw [findRecord_cons_pos t ha] at h
      exact absurd h (by simp)
    | false =>
      have h' : findRecord t rid pname = none := by
        rwa [findRecord_cons_neg t ha] at h
      rw [List.cons_append, findRecord_cons_neg _ ha]
      exact ih h'

theorem findRecord_replaceFirst {st : List StoredRecord} {rid pname : String}
    {r : StoredRecord} (r' : StoredRecord)
    (h : findRecord st rid pname = some r) (h' : keyMatch r' rid pname = true) :
    findRecord (replaceFirst st rid pname r') rid pname = some r' := by
  induction st with
  | nil => simp [findRecord, List.find?] at h
  | cons a t ih =>
    cases ha : keyMatch a rid pname with
    | true =>
      simp only [replaceFirst, ha, if_true]
      exact findRecord_cons_pos t h'
    | false =>
      have h2 : findRecord t rid pname = some r := by
        rwa [findRecord_cons_neg t ha] at h
      simp only [replaceFirst, ha, Bool.false_eq_true, if_false]
      rw [findRecord_cons_neg _ ha]
      exact ih h2

theorem findRecord_setSummaryFirst {st : List StoredRecord} {rid pname : String}
    {r : StoredRecord} (v : String)
    (h : findRecord st rid pname = some r) :
    findRecord (setSummaryFirst st rid pname v) rid pname =
      some { r with test_summary := v } := by
  induction st with
  | nil => simp [findRecord, List.find?] at h
  | cons a t ih =>
    cases ha : keyMatch a rid pname with
    | true =>
      have har : a = r := by
        rw [findRecord_cons_pos t ha] at h
        exact Option.some.inj h
      subst har
      simp only [setSummaryFirst, ha, if_true]
      exact findRecord_cons_pos t (by rw [keyMatch_setSummary]; exact ha)
    | false =>
      have h2 : findRecord t rid pname = some r := by
        rwa [findRecord_cons_neg t ha] at h
      simp only [setSummaryFirst, ha, Bool.false_eq_true, if_false]
      rw [findRecord_cons_neg _ ha]
      exact ih h2

theorem create_or_update_absent (st : List StoredRecord) (sub : Submission)
    (h : findRecord st sub.request_id sub.patient_name = none) :
    create_or_update st sub =
      (st ++ [newRecord sub], ⟨"created", false, sub.extracted_text⟩) := by
  simp [create_or_update, h]

theorem create_or_update_present (st : List StoredRecord) (sub : Submission)
    (r : StoredRecord)
    (h : findRecord st sub.request_id sub.patient_name = some r) :
    create_or_update st sub =
      (replaceFirst st sub.request_id sub.patient_name (mergedRecord r sub),
        ⟨"updated", true, r.extracted_text ++ docSep ++ sub.extracted_text⟩) := by
  simp [create_or_update, h]

theorem runSubs_cons (st : List StoredRecord) (s : Submission) (rest : List Submission) :
    runSubs st (s :: rest) =
      ((runSubs (create_or_update st s).1 rest).1,
        (create_or_update st s).2 :: (runSubs (create_or_update st s).1 rest).2) := rfl

theorem runSubs_present_updated (rid pname : String) (subs : List Submission) :
    ∀ (st : List StoredRecord) (r : StoredRecord),
      findRecord st rid pname = some r →
      (∀ s ∈ subs, s.request_id = rid ∧ s.patient_name = pname) →
      ∀ x ∈ (runSubs st subs).2, x.action = "updated" ∧ x.is_duplicate = true := by
  induction subs with
  | nil =>
    intro st r _ _ x hx
    simp [runSubs] at hx
  | cons s rest ih =>
    intro st r hfind hkey x hx
    obtain ⟨h1, h2⟩ := hkey s (List.mem_cons_self s rest)
    subst h1; subst h2
    have hres := create_or_update_present st s r hfind
    rw [runSubs_cons, hres] at hx
    simp only [List.mem_cons] at hx
    rcases hx with hx | hx
    · subst hx; exact ⟨rfl, rfl⟩
    · have hkm : keyMatch (mergedRecord r s) s.request_id s.patient_name = true := by
        rw [keyMatch_mergedRecord]; exact findRecord_some hfind
      have hfind' := findRecord_replaceFirst (mergedRecord r s) hfind hkm
      exact ih _ _ hfind' (fun t ht => hkey t (List.mem_cons_of_mem _ ht)) x hx

theorem runSubs_present_text (rid pname : String) (subs : List Submission) :
    ∀ (st : List StoredRecord) (r : StoredRecord),
      findRecord st rid pname = some r →
      (∀ s ∈ subs, s.request_id = rid ∧ s.patient_name = pname) →
      ∃ r', findRecord (runSubs st subs).1 rid pname = some r' ∧
        r'.extracted_text =
          subs.foldl (fun a s2 => a ++ docSep ++ s2.extracted_text) r.extracted_text := by
  induction subs with
  | nil => intro st r h _; exact ⟨r, h, rfl⟩
  | cons s rest ih =>
    intro st r hfind hkey
    obtain ⟨h1, h2⟩ := hkey s (List.mem_cons_self s rest)
    subst h1; subst h2
    have hres := create_or_update_present st s r hfind
    have hkm : keyMatch (mergedRecord r s) s.request_id s.patient_name = true := by
      rw [keyMatch_mergedRecord]; exact findRecord_some hfind
    have hfind' := findRecord_replaceFirst (mergedRecord r s) hfind hkm
    obtain ⟨r', hr', htext⟩ := ih _ _ hfind' (fun t ht => hkey t (List.mem_cons_of_mem _ ht))
    refine ⟨r', ?_, ?_⟩
    · rw [runSubs_cons, hres]; exact hr'
    · rw [List.foldl_cons]; exact htext

theorem joinTexts_cons_cons (t u : String) (ts : List String) :
    joinTexts (t :: u :: ts) = t ++ docSep ++ joinTexts (u :: ts) := rfl

theorem joinTexts_append_head (x t : String) (ts : List String) :
    joinTexts ((x ++ docSep ++ t) :: ts) = x ++ docSep ++ joinTexts (t :: ts) := by
  cases ts with
  | nil => rfl
  | cons u us =>
    rw [joinTexts_cons_cons, joinTexts_cons_cons]
    simp [String.append_assoc]

theorem joinTexts_foldl (ts : List String) (x : String) :
    joinTexts (x :: ts) = ts.foldl (fun a t => a ++ docSep ++ t) x := by
  induction ts generalizing x with
  | nil => rfl
  | cons t ts ih =>
    rw [List.foldl_cons, ← ih (x ++ docSep ++ t), joinTexts_append_head]
    rfl

/-!
## Claims C1–C4
-/

/-- Claim C1: For an identity key `(requestId, patientName)` absent from the
store, a batch of `create_or_update` calls for that key returns
`action = "created", is_duplicate = false` on the first call and
`action = "updated", is_duplicate = true` on every subsequent call, no matter
how many calls there are. -/
theorem claim_C1 (st : List StoredRecord) (rid pname : String) (subs : List Submission)
    (habs : findRecord st rid pname = none)
    (hkey : ∀ s ∈ subs, s.request_id = rid ∧ s.patient_name = pname)
    (hne : subs ≠ []) :
    ∃ r1 rs, (runSubs st subs).2 = r1 :: rs ∧
      r1.action = "created" ∧ r1.is_duplicate = false ∧
      ∀ x ∈ rs, x.action = "updated" ∧ x.is_duplicate = true := by
  cases subs with
  | nil => exact absurd rfl hne
  | cons s rest =>
    obtain ⟨h1, h2⟩ := hkey s (List.mem_cons_self s rest)
    subst h1; subst h2
    have hres := create_or_update_absent st s habs
    have hfind1 : findRecord (st ++ [newRecord s]) s.request_id s.patient_name =
        some (newRecord s) := by
      rw [findRecord_append_none _ habs]
      simp [keyMatch, newRecord]
    refine ⟨⟨"created", false, s.extracted_text⟩,
      (runSubs (st ++ [newRecord s]) rest).2, ?_, rfl, rfl, ?_⟩
    · rw [runSubs_cons, hres]
    · intro x hx
      exact runSubs_present_updated s.request_id s.patient_name rest _ _ hfind1
        (fun t ht => hkey t (List.mem_cons_of_mem _ ht)) x hx

/-- Witness for C1 at a concrete three-call batch. -/
theorem claim_C1_witness :
    ∃ r1 rs, (runSubs []
        [⟨"R1", "P1", "T1", "A", "m1", "f1", "S1"⟩,
         ⟨"R1", "P1", "T2", "B", "m2", "f2", "S2"⟩,
         ⟨"R1", "P1", "T3", "C", "m3", "f3", "S3"⟩]).2 = r1 :: rs ∧
      r1.action = "created" ∧ r1.is_duplicate = false ∧
      ∀ x ∈ rs, x.action = "updated" ∧ x.is_duplicate = true :=
  claim_C1 [] "R1" "P1" _ (by decide) (by decide) (by decide)

/-- Claim C2: Starting from a store without the key, the record built by a batch
of same-key `create_or_update` calls holds as `extracted_text` the
arrival-ordered join of all submitted document texts by the literal separator
`"\n\n--- NEW DOCUMENT ---\n\n"`. -/
theorem claim_C2 (st : List StoredRecord) (rid pname : String) (subs : List Submission)
    (habs : findRecord st rid pname = none)
    (hkey : ∀ s ∈ subs, s.request_id = rid ∧ s.patient_name = pname)
    (hne : subs ≠ []) :
    ∃ r, findRecord (runSubs st subs).1 rid pname = some r ∧
      r.extracted_text = joinTexts (subs.map (fun s => s.extracted_text)) := by
  cases subs with
  | nil => exact absurd rfl hne
  | cons s rest =>
    obtain ⟨h1, h2⟩ := hkey s (List.mem_cons_self s rest)
    subst h1; subst h2
    have hres := create_or_update_absent st s habs
    have hfind1 : findRecord (st ++ [newRecord s]) s.request_id s.patient_name =
        some (newRecord s) := by
      rw [findRecord_append_none _ habs]
      simp [keyMatch, newRecord]
    obtain ⟨r', hr', htext⟩ := runSubs_present_text s.request_id s.patient_name rest _ _ hfind1
      (fun t ht => hkey t (List.mem_cons_of_mem _ ht))
    refine ⟨r', ?_, ?_⟩
    · rw [runSubs_cons, hres]; exact hr'
    · rw [htext, List.map_cons, joinTexts_foldl, ← List.foldl_map]
      rfl

/-- Witness for C2: texts `"A"` then `"B"` collate to
`"A\n\n--- NEW DOCUMENT ---\n\nB"`. -/
theorem claim_C2_witness :
    ∃ r, findRecord (runSubs []
        [⟨"R1", "P1", "T1", "A", "m1", "f1", "S1"⟩,
         ⟨"R1", "P1", "T2", "B", "m2", "f2", "S2"⟩]).1 "R1" "P1" = some r ∧
      r.extracted_text = "A\n\n--- NEW DOCUMENT ---\n\nB" := by
  obtain ⟨r, h1, h2⟩ := claim_C2 [] "R1" "P1"
    [⟨"R1", "P1", "T1", "A", "m1", "f1", "S1"⟩,
     ⟨"R1", "P1", "T2", "B", "m2", "f2", "S2"⟩] (by decide) (by decide) (by decide)
  exact ⟨r, h1, by rw [h2]; rfl⟩

/-- Claim C3: The create branch of `create_or_update` stores the record with
`needs_llm_analysis = false`; the update branch always stores it with
`needs_llm_analysis = true`; so the flag is never set on first creation. -/
theorem claim_C3 (st : List StoredRecord) (sub : Submission) :
    (findRecord st sub.request_id sub.patient_name = none →
      (create_or_update st sub).2.action = "created" ∧
      (findRecord (create_or_update st sub).1 sub.request_id sub.patient_name).map
        (fun r => r.needs_llm_analysis) = some false) ∧
    (∀ r, findRecord st sub.request_id sub.patient_name = some r →
      (create_or_update st sub).2.action = "updated" ∧
      (findRecord (create_or_update st sub).1 sub.request_id sub.patient_name).map
        (fun r => r.needs_llm_analysis) = some true) := by
  constructor
  · intro h
    rw [create_or_update_absent st sub h]
    refine ⟨rfl, ?_⟩
    rw [findRecord_append_none _ h]
    simp [keyMatch, newRecord]
  · intro r h
    rw [create_or_update_present st sub r h]
    refine ⟨rfl, ?_⟩
    rw [findRecord_replaceFirst _ h
      (by rw [keyMatch_mergedRecord]; exact findRecord_some h)]
    rfl

/-- Witness for C3: creation leaves the flag false, one merge sets it true. -/
theorem claim_C3_witness :
    ((create_or_update [] ⟨"R1", "P1", "T1", "A", "m1", "f1", "S1"⟩).2.action = "created" ∧
      (findRecord (create_or_update [] ⟨"R1", "P1", "T1", "A", "m1", "f1", "S1"⟩).1
          "R1" "P1").map (fun r => r.needs_llm_analysis) = some false) ∧
    ((create_or_update [⟨"R1", "P1", "T1", "A", "S1",
          [⟨"f1", "m1", "S1", "T1"⟩], ["m1"], false⟩]
        ⟨"R1", "P1", "T2", "B", "m2", "f2", "S2"⟩).2.action = "updated" ∧
      (findRecord (create_or_update [⟨"R1", "P1", "T1", "A", "S1",
            [⟨"f1", "m1", "S1", "T1"⟩], ["m1"], false⟩]
          ⟨"R1", "P1", "T2", "B", "m2", "f2", "S2"⟩).1
          "R1" "P1").map (fun r => r.needs_llm_analysis) = some true) :=
  ⟨(claim_C3 [] ⟨"R1", "P1", "T1", "A", "m1", "f1", "S1"⟩).1 (by decide),
    (claim_C3 [⟨"R1", "P1", "T1", "A", "S1", [⟨"f1", "m1", "S1", "T1"⟩], ["m1"], false⟩]
        ⟨"R1", "P1", "T2", "B", "m2", "f2", "S2"⟩).2
      ⟨"R1", "P1", "T1", "A", "S1", [⟨"f1", "m1", "S1", "T1"⟩], ["m1"], false⟩ (by decide)⟩

/-!
## Claim C4
-/

/-- Claim C4 counterexample: Processing two documents (summaries `"S1"` then
`"S2"`) through the full `process_pdf_attachment` path leaves the record's
`test_summary` equal to `"S2"` alone — not the accumulated `"S1 | S2"` the
claim asserts the record holds after each processed document — because the
pipeline manually overwrites the summary after `create_or_update`. -/
theorem claim_C4_counterexample :
    ((findRecord (process_pdf_attachment
        (process_pdf_attachment [] ⟨"R1", "P1", "T1", "DocA", "m1", "f1.pdf", "S1"⟩).1
        ⟨"R1", "P1", "T2", "DocB", "m2", "f2.pdf", "S2"⟩).1 "R1" "P1").map
      (fun x => x.test_summary)) = some "S2" ∧
    ("S2" : String) ≠ "S1" ++ " | " ++ "S2" := by
  constructor
  · decide
  · decide

/-- Claim C4, amended: Inside `create_or_update`, a merge sets the stored
`test_summary` to old + `" | "` + new when both are non-empty, to the new
summary alone when the old one is empty, and leaves the old value untouched
when the new summary is empty; but `process_pdf_attachment` then overwrites
the record's `test_summary` with the new document's summary alone, so after
each fully processed document the record holds only the latest summary. -/
theorem claim_C4_amended (st : List StoredRecord) (sub : Submission) (r : StoredRecord)
    (h : findRecord st sub.request_id sub.patient_name = some r) :
    (sub.test_summary ≠ "" → r.test_summary ≠ "" →
      (findRecord (create_or_update st sub).1 sub.request_id sub.patient_name).map
        (fun x => x.test_summary) = some (r.test_summary ++ " | " ++ sub.test_summary)) ∧
    (sub.test_summary ≠ "" → r.test_summary = "" →
      (findRecord (create_or_update st sub).1 sub.request_id sub.patient_name).map
        (fun x => x.test_summary) = some sub.test_summary) ∧
    (sub.test_summary = "" →
      (findRecord (create_or_update st sub).1 sub.request_id sub.patient_name).map
        (fun x => x.test_summary) = some r.test_summary) ∧
    (findRecord (process_pdf_attachment st sub).1 sub.request_id sub.patient_name).map
      (fun x => x.test_summary) = some sub.test_summary := by
  have hkm : keyMatch (mergedRecord r sub) sub.request_id sub.patient_name = true := by
    rw [keyMatch_mergedRecord]; exact findRecord_some h
  have hfind' := findRecord_replaceFirst (mergedRecord r sub) h hkm
  have hf2 : findRecord (create_or_update st sub).1 sub.request_id sub.patient_name =
      some (mergedRecord r sub) := by
    rw [create_or_update_present st sub r h]; exact hfind'
  refine ⟨?_, ?_, ?_, ?_⟩
  · intro hn ho
    rw [hf2]
    simp [mergedRecord, hn, ho]
  · intro hn ho
    rw [hf2]
    simp [mergedRecord, hn, ho]
  · intro hn
    rw [hf2]
    simp [mergedRecord, hn]
  · have hf3 := findRecord_setSummaryFirst sub.test_summary hf2
    rw [show (process_pdf_attachment st sub).1 = setSummaryFirst (create_or_update st sub).1
        sub.request_id sub.patient_name sub.test_summary from rfl, hf3]
    rfl

/-- Witness for the amended C4 at concrete records. -/
theorem claim_C4_witness :
    ((findRecord (create_or_update
        [⟨"R1", "P1", "T1", "DocA", "S1", [⟨"f1", "m1", "S1", "T1"⟩], ["m1"], false⟩]
        ⟨"R1", "P1", "T2", "DocB", "m2", "f2", "S2"⟩).1 "R1" "P1").map
      (fun x => x.test_summary) = some "S1 | S2") ∧
    ((findRecord (process_pdf_attachment
        [⟨"R1", "P1", "T1", "DocA", "S1", [⟨"f1", "m1", "S1", "T1"⟩], ["m1"], false⟩]
        ⟨"R1", "P1", "T2", "DocB", "m2", "f2", "S2"⟩).1 "R1" "P1").map
      (fun x => x.test_summary) = some "S2") := by
  have h := claim_C4_amended
    [⟨"R1", "P1", "T1", "DocA", "S1", [⟨"f1", "m1", "S1", "T1"⟩], ["m1"], false⟩]
    ⟨"R1", "P1", "T2", "DocB", "m2", "f2", "S2"⟩
    ⟨"R1", "P1", "T1", "DocA", "S1", [⟨"f1", "m1", "S1", "T1"⟩], ["m1"], false⟩
    (by decide)
  exact ⟨h.1 (by decide) (by decide), h.2.2.2⟩

/-!
## Claim C5
-/

theorem testRecords_filter (fs : List PdfFileEntry) (tag : String) :
    (fs.map (fun p =>
        (determine_test_type p.filename p.test_type, p.test_summary, p.filename))).filter
      (fun r => r.1 == tag) =
    (fs.filter (fun p => determine_test_type p.filename p.test_type == tag)).map
      (fun p => (determine_test_type p.filename p.test_type, p.test_summary, p.filename)) := by
  rw [List.filter_map]
  rfl

theorem handle_duplicate_record_eq (fs : List PdfFileEntry) :
    handle_duplicate_record fs =
      match fs.filter (fun p => determine_test_type p.filename p.test_type == "Blood Work"),
            fs.filter (fun p => determine_test_type p.filename p.test_type == "CT Scan") with
      | b :: _, c :: _ => some (b.test_summary, c.test_summary)
      | _, _ => none := by
  simp only [handle_duplicate_record]
  rw [testRecords_filter fs "Blood Work", testRecords_filter fs "CT Scan"]
  cases fs.filter (fun p => determine_test_type p.filename p.test_type == "Blood Work") <;>
    cases fs.filter (fun p => determine_test_type p.filename p.test_type == "CT Scan") <;>
    rfl

theorem filter_ne_nil_dtt (fs : List PdfFileEntry) (tag : String) :
    fs.filter (fun p => determine_test_type p.filename p.test_type == tag) ≠ [] ↔
      ∃ p ∈ fs, determine_test_type p.filename p.test_type = tag := by
  rw [Ne, List.filter_eq_nil_iff]
  push_neg
  simp

/-- Claim C5: The completion gate fires exactly when the record's sub-documents
contain at least one entry classified `Blood Work` and one classified
`CT Scan`; when it fires, the representative summaries are those of the
earliest-inserted sub-document of each type (later duplicates are ignored). -/
theorem claim_C5 (fs : List PdfFileEntry) :
    ((handle_duplicate_record fs).isSome = true ↔
      ((∃ p ∈ fs, determine_test_type p.filename p.test_type = "Blood Work") ∧
       (∃ p ∈ fs, determine_test_type p.filename p.test_type = "CT Scan"))) ∧
    (∀ b c, handle_duplicate_record fs = some (b, c) →
      ((fs.filter (fun p =>
          determine_test_type p.filename p.test_type == "Blood Work")).head?).map
        (fun p => p.test_summary) = some b ∧
      ((fs.filter (fun p =>
          determine_test_type p.filename p.test_type == "CT Scan")).head?).map
        (fun p => p.test_summary) = some c) := by
  rw [handle_duplicate_record_eq fs, ← filter_ne_nil_dtt fs "Blood Work",
    ← filter_ne_nil_dtt fs "CT Scan"]
  cases fs.filter (fun p => determine_test_type p.filename p.test_type == "Blood Work") <;>
    cases fs.filter (fun p => determine_test_type p.filename p.test_type == "CT Scan") <;>
    simp

/-- Witness for C5: a record with two Blood Work sub-documents and one CT Scan
sub-document is ready, and the representatives come from the first entry of
each group (`"B1"`, not the later `"B2"`). -/
theorem claim_C5_witness :
    (([⟨"blood1.pdf", "m1", "B1", "x"⟩, ⟨"blood2.pdf", "m2", "B2", "x"⟩,
        ⟨"ct.pdf", "m3", "C1", "x"⟩] : List PdfFileEntry).filter (fun p =>
        determine_test_type p.filename p.test_type == "Blood Work")).head?.map
      (fun p => p.test_summary) = some "B1" ∧
    (([⟨"blood1.pdf", "m1", "B1", "x"⟩, ⟨"blood2.pdf", "m2", "B2", "x"⟩,
        ⟨"ct.pdf", "m3", "C1", "x"⟩] : List PdfFileEntry).filter (fun p =>
        determine_test_type p.filename p.test_type == "CT Scan")).head?.map
      (fun p => p.test_summary) = some "C1" :=
  (claim_C5 [⟨"blood1.pdf", "m1", "B1", "x"⟩, ⟨"blood2.pdf", "m2", "B2", "x"⟩,
      ⟨"ct.pdf", "m3", "C1", "x"⟩]).2 "B1" "C1" (by decide)

/-!
## Claim C8
-/

/-- Claim C8: `determine_test_type` classifies by the case-folded filename first
(`blood`/`lab`/`hematology` → Blood Work, else `ct`/`scan`/`radiology` →
CT Scan) and consults the declared test type only when the filename matches
neither group, so the filename takes strict precedence; otherwise the result
is `Unknown`.  Includes the spec's three concrete examples. -/
theorem claim_C8 :
    (∀ f t : String,
      (determine_test_type f t = "Blood Work" ↔
        (fileBlood f = true ∨
          (fileBlood f = false ∧ fileCT f = false ∧ typeBlood t = true))) ∧
      (determine_test_type f t = "CT Scan" ↔
        ((fileBlood f = false ∧ fileCT f = true) ∨
          (fileBlood f = false ∧ fileCT f = false ∧ typeBlood t = false ∧
            typeCT t = true))) ∧
      (determine_test_type f t = "Unknown" ↔
        (fileBlood f = false ∧ fileCT f = false ∧ typeBlood t = false ∧
          typeCT t = false))) ∧
    determine_test_type "blood_panel.pdf" "" = "Blood Work" ∧
    determine_test_type "report.pdf" "CT of chest" = "CT Scan" ∧
    determine_test_type "x.pdf" "" = "Unknown" := by
  refine ⟨?_, by decide, by decide, by decide⟩
  intro f t
  cases h1 : fileBlood f <;> cases h2 : fileCT f <;> cases h3 : typeBlood t <;>
    cases h4 : typeCT t <;>
    simp only [determine_test_type, h1, h2, h3, h4] <;> decide

/-!
## Strip lemmas (for C9)
-/

theorem dropWhile_head_not {α : Type} {p : α → Bool} :
    ∀ {l : List α} {a : α}, (l.dropWhile p).head? = some a → p a = false := by
  intro l
  induction l with
  | nil => intro a h; simp [List.dropWhile] at h
  | cons b t ih =>
    intro a h
    by_cases hb : p b
    · rw [List.dropWhile_cons_of_pos hb] at h
      exact ih h
    · rw [List.dropWhile_cons_of_neg hb] at h
      obtain rfl : b = a := by simpa using h
      simpa using hb

theorem dropWhile_eq_self_of_head {α : Type} {p : α → Bool} {l : List α}
    (h : ∀ a, l.head? = some a → p a = false) : l.dropWhile p = l := by
  cases l with
  | nil => rfl
  | cons a t =>
    have := h a rfl
    rw [List.dropWhile_cons_of_neg (by simp [this])]

theorem getLast?_dropWhile_ne_nil {α : Type} {p : α → Bool} :
    ∀ (l : List α), l.dropWhile p ≠ [] → (l.dropWhile p).getLast? = l.getLast? := by
  intro l
  induction l with
  | nil => intro h; simp [List.dropWhile] at h
  | cons a t ih =>
    intro h
    by_cases ha : p a
    · rw [List.dropWhile_cons_of_pos ha] at h ⊢
      cases t with
      | nil => simp [List.dropWhile] at h
      | cons b t' => rw [ih h, List.getLast?_cons_cons]
    · rw [List.dropWhile_cons_of_neg ha]

theorem pyStrip_head_not (l : List Char) (a : Char)
    (h : (pyStrip l).head? = some a) : isPyWs a = false := by
  unfold pyStrip at h
  rw [List.head?_reverse] at h
  have hne : ((l.dropWhile isPyWs).reverse.dropWhile isPyWs) ≠ [] := by
    intro he; rw [he] at h; simp at h
  rw [getLast?_dropWhile_ne_nil _ hne, List.getLast?_reverse] at h
  exact dropWhile_head_not h

theorem pyStrip_getLast_not (l : List Char) (a : Char)
    (h : (pyStrip l).getLast? = some a) : isPyWs a = false := by
  unfold pyStrip at h
  rw [List.getLast?_reverse] at h
  exact dropWhile_head_not h

theorem pyStrip_idem (l : List Char) : pyStrip (pyStrip l) = pyStrip l := by
  have h1 : (pyStrip l).dropWhile isPyWs = pyStrip l :=
    dropWhile_eq_self_of_head (fun a ha => pyStrip_head_not l a ha)
  have h2 : ((pyStrip l).reverse).dropWhile isPyWs = (pyStrip l).reverse :=
    dropWhile_eq_self_of_head (fun a ha =>
      pyStrip_getLast_not l a (by rwa [List.head?_reverse] at ha))
  show (((pyStrip l).dropWhile isPyWs).reverse.dropWhile isPyWs).reverse = pyStrip l
  rw [h1, h2, List.reverse_reverse]

/-!
## Claim C9
-/

/-- Claim C9 counterexample: On input `"  note  "` (no marker) the fallback
leaves `clinical_interpretation` as the raw, untrimmed text while
`test_summary` is trimmed, so the two fields differ — contradicting the claim
that both equal the entire trimmed raw text; moreover a null input flows
through to `full_text` unchanged rather than becoming an empty string. -/
theorem claim_C9_counterexample :
    (extract_clinical_interpretation (some "  note  ")).clinical_interpretation ≠
      (extract_clinical_interpretation (some "  note  ")).test_summary ∧
    (extract_clinical_interpretation (some "  note  ")).clinical_interpretation =
      "  note  " ∧
    (extract_clinical_interpretation none).full_text = none := by
  refine ⟨by decide, by decide, rfl⟩

/-- Claim C9, amended: When the case-insensitive marker is found, both
`clinical_interpretation` and `test_summary` equal the trimmed text after the
match; when it is not found, `clinical_interpretation` is the raw text
*untrimmed* while `test_summary` is the trimmed raw text, and the returned
dict carries no success/fallback flag (the source only logs a warning); empty
input yields empty text fields, and a null input yields empty text fields with
`full_text` still null. -/
theorem claim_C9_amended :
    (∀ (t : String) (m : MatchRes), t.data ≠ [] →
      reSearch true markerPat t.data = some m →
      extract_clinical_interpretation (some t) =
        ⟨⟨pyStrip (t.data.drop (m.start + m.matched.length))⟩,
          ⟨pyStrip (t.data.drop (m.start + m.matched.length))⟩, some t⟩) ∧
    (∀ t : String, t.data ≠ [] → reSearch true markerPat t.data = none →
      extract_clinical_interpretation (some t) = ⟨t, ⟨pyStrip t.data⟩, some t⟩) ∧
    extract_clinical_interpretation (some "") = ⟨"", "", some ""⟩ ∧
    extract_clinical_interpretation none = ⟨"", "", none⟩ := by
  refine ⟨?_, ?_, rfl, rfl⟩
  · intro t m ht hm
    simp [extract_clinical_interpretation, ht, hm, pyStrip_idem]
  · intro t ht hm
    simp [extract_clinical_interpretation, ht, hm]

/-- Witness for the amended C9 at the spec's example. -/
theorem claim_C9_witness :
    extract_clinical_interpretation (some "Clinical Interpretation: Patient is stable.") =
      ⟨"Patient is stable.", "Patient is stable.",
        some "Clinical Interpretation: Patient is stable."⟩ := by
  have h := claim_C9_amended.1 "Clinical Interpretation: Patient is stable."
    ⟨0, "Clinical Interpretation: ".data, []⟩ (by decide) (by decide)
  rw [h]
  decide

/-!
## Claim C6
-/

/-- Claim C6: The parser's cascade honours patterns 1–3 in order, returning the
stripped captured groups of the first pattern that matches; in particular the
two subjects given by the spec parse to the stated triples. -/
theorem claim_C6 :
    (∀ (s : String) (m : MatchRes), reSearch true pattern1 s.data = some m →
      parse_medical_subject s = some ⟨⟨pyStrip (capGet m.caps 1)⟩,
        ⟨pyStrip (capGet m.caps 2)⟩, ⟨pyStrip (capGet m.caps 3)⟩⟩) ∧
    (∀ (s : String) (m : MatchRes), reSearch true pattern1 s.data = none →
      reSearch true pattern2 s.data = some m →
      parse_medical_subject s = some ⟨⟨pyStrip (capGet m.caps 1)⟩,
        ⟨pyStrip (capGet m.caps 2)⟩, ⟨pyStrip (capGet m.caps 3)⟩⟩) ∧
    (∀ (s : String) (m : MatchRes), reSearch true pattern1 s.data = none →
      reSearch true pattern2 s.data = none →
      reSearch true pattern3 s.data = some m →
      parse_medical_subject s = some ⟨⟨pyStrip (capGet m.caps 1)⟩,
        ⟨pyStrip (capGet m.caps 2)⟩, ⟨pyStrip (capGet m.caps 3)⟩⟩) ∧
    parse_medical_subject "Request ID: REQ123 | Test: Blood Work | Patient: John Doe" =
      some ⟨"REQ123", "Blood Work", "John Doe"⟩ ∧
    parse_medical_subject "REQ456 - MRI Scan - Jane Smith" =
      some ⟨"REQ456", "MRI Scan", "Jane Smith"⟩ := by
  refine ⟨?_, ?_, ?_, by decide, by decide⟩
  · intro s m h
    simp [parse_medical_subject, tryPattern, h]
  · intro s m h1 h2
    simp [parse_medical_subject, tryPattern, h1, h2]
  · intro s m h1 h2 h3
    simp [parse_medical_subject, tryPattern, h1, h2, h3]

/-- Witness for C6: the labeled-form subject, with the concrete match of
pattern 1 (raw captures `"REQ123"`, `"Blood Work "`, `"John Doe"`). -/
theorem claim_C6_witness :
    parse_medical_subject "Request ID: REQ123 | Test: Blood Work | Patient: John Doe" =
      some ⟨"REQ123", "Blood Work", "John Doe"⟩ := by
  have h := claim_C6.1 "Request ID: REQ123 | Test: Blood Work | Patient: John Doe"
    ⟨0, "Request ID: REQ123 | Test: Blood Work | Patient: John Doe".data,
      [(3, "John Doe".data), (2, "Blood Work ".data), (1, "REQ123".data)]⟩ (by decide)
  rw [h]
  decide

/-!
## Claim C7
-/

/-- Claim C7 counterexample: For the one-word subject `"REQ123"` the fallback
does not reject the candidate even though no test-type substring remains
between the request-id token and any patient name: it fabricates the
placeholders `"Unknown Test"` and `"Unknown Patient"` (neither of which occurs
in the subject) and returns a parse result. -/
theorem claim_C7_counterexample :
    parse_medical_subject "REQ123" =
      some ⟨"REQ123", "Unknown Test", "Unknown Patient"⟩ ∧
    containsSub "Unknown".data "REQ123".data = false := by
  exact ⟨by decide, by decide⟩

/-- Claim C7, amended: When none of the four patterns succeeds, `parse`
returns null (e.g. for `"Hello world no markers"`).  In the heuristic
fallback, the patient name comes from a `Patient` label when the label pattern
matches (the trimmed captured group), else from the last two whitespace tokens
when the subject has at least three tokens, else the placeholder
`"Unknown Patient"`; the test type is the `' -|'`-stripped substring between
the request-id token and the label when the label matches, else the middle
tokens after the request-id token excluding the trailing two when such tokens
exist, else the placeholder `"Unknown Test"`; and the candidate is rejected
exactly when the computed test-type string is empty (in both the label and the
middle-tokens branch), so a bare request-id subject is accepted with both
placeholders.  Conjuncts: (1) all four patterns fail; (2) no-label branch,
accepted; (3) label branch, accepted; (4) label branch, rejected on empty test
type; (5) no-label middle-tokens branch, rejected on empty test type; (6)
no-label placeholder branch, always accepted; (7)–(8) concrete instances. -/
theorem claim_C7_amended :
    (∀ s : String,
      reSearch true pattern1 s.data = none → reSearch true pattern2 s.data = none →
      reSearch true pattern3 s.data = none → reSearch true reqPat s.data = none →
      parse_medical_subject s = none) ∧
    (∀ (s : String) (rm : MatchRes) (words : List (List Char)) (ri : Nat)
        (tt : List Char),
      reSearch true pattern1 s.data = none → reSearch true pattern2 s.data = none →
      reSearch true pattern3 s.data = none → reSearch true reqPat s.data = some rm →
      reSearch true patientPat s.data = none →
      words = pySplitWs s.data →
      ri = (words.findIdx? (fun w => containsSub "REQ".data (pyUpper w))).getD 0 →
      tt = List.intercalate [' '] ((words.drop (ri + 1)).take (words.length - 2 - (ri + 1))) →
      3 ≤ words.length → ri + 1 < words.length → tt ≠ [] →
      parse_medical_subject s = some ⟨⟨rm.matched⟩, ⟨tt⟩,
        ⟨List.intercalate [' '] (words.drop (words.length - 2))⟩⟩) ∧
    (∀ (s : String) (rm pm : MatchRes) (tt : List Char),
      reSearch true pattern1 s.data = none → reSearch true pattern2 s.data = none →
      reSearch true pattern3 s.data = none → reSearch true reqPat s.data = some rm →
      reSearch true patientPat s.data = some pm →
      tt = stripSet [' ', '-', '|'] (pySlice s.data
        (pyFind s.data rm.matched + (rm.matched.length : Int)) (pm.start : Int)) →
      tt ≠ [] →
      parse_medical_subject s = some ⟨⟨rm.matched⟩, ⟨tt⟩,
        ⟨pyStrip (capGet pm.caps 1)⟩⟩) ∧
    (∀ (s : String) (rm pm : MatchRes),
      reSearch true pattern1 s.data = none → reSearch true pattern2 s.data = none →
      reSearch true pattern3 s.data = none → reSearch true reqPat s.data = some rm →
      reSearch true patientPat s.data = some pm →
      stripSet [' ', '-', '|'] (pySlice s.data
        (pyFind s.data rm.matched + (rm.matched.length : Int)) (pm.start : Int)) = [] →
      parse_medical_subject s = none) ∧
    (∀ (s : String) (rm : MatchRes) (words : List (List Char)) (ri : Nat),
      reSearch true pattern1 s.data = none → reSearch true pattern2 s.data = none →
      reSearch true pattern3 s.data = none → reSearch true reqPat s.data = some rm →
      reSearch true patientPat s.data = none →
      words = pySplitWs s.data →
      ri = (words.findIdx? (fun w => containsSub "REQ".data (pyUpper w))).getD 0 →
      ri + 1 < words.length →
      List.intercalate [' ']
        ((words.drop (ri + 1)).take (words.length - 2 - (ri + 1))) = [] →
      parse_medical_subject s = none) ∧
    (∀ (s : String) (rm : MatchRes) (words : List (List Char)) (ri : Nat),
      reSearch true pattern1 s.data = none → reSearch true pattern2 s.data = none →
      reSearch true pattern3 s.data = none → reSearch true reqPat s.data = some rm →
      reSearch true patientPat s.data = none →
      words = pySplitWs s.data →
      ri = (words.findIdx? (fun w => containsSub "REQ".data (pyUpper w))).getD 0 →
      ¬ ri + 1 < words.length →
      parse_medical_subject s = some ⟨⟨rm.matched⟩, ⟨"Unknown Test".data⟩,
        ⟨if 3 ≤ words.length then List.intercalate [' '] (words.drop (words.length - 2))
          else "Unknown Patient".data⟩⟩) ∧
    parse_medical_subject "Hello world no markers" = none ∧
    parse_medical_subject "REQ123" =
      some ⟨"REQ123", "Unknown Test", "Unknown Patient"⟩ := by
  refine ⟨?_, ?_, ?_, ?_, ?_, ?_, by decide, by decide⟩
  · intro s h1 h2 h3 h4
    simp [parse_medical_subject, tryPattern, fallbackParse, h1, h2, h3, h4]
  · intro s rm words ri tt h1 h2 h3 h4 h5 hw hri htt h3le hlt htne
    subst hw; subst hri; subst htt
    simp only [parse_medical_subject, tryPattern, fallbackParse, h1, h2, h3, h4, h5,
      Option.map_none', if_pos h3le, if_pos hlt, if_pos htne]
  · intro s rm pm tt h1 h2 h3 h4 h5 htt htne
    subst htt
    simp only [parse_medical_subject, tryPattern, fallbackParse, h1, h2, h3, h4, h5,
      Option.map_none', if_pos htne]
  · intro s rm pm h1 h2 h3 h4 h5 hz
    simp [parse_medical_subject, tryPattern, fallbackParse, h1, h2, h3, h4, h5, hz]
  · intro s rm words ri h1 h2 h3 h4 h5 hw hri hlt hz
    subst hw; subst hri
    simp [parse_medical_subject, tryPattern, fallbackParse, h1, h2, h3, h4, h5,
      hlt, hz]
  · intro s rm words ri h1 h2 h3 h4 h5 hw hri hnlt
    subst hw; subst hri
    have hne : "Unknown Test".data ≠ [] := by decide
    simp only [parse_medical_subject, tryPattern, fallbackParse, h1, h2, h3, h4, h5,
      Option.map_none', if_neg hnlt, if_pos hne]

/-- Witness for the amended C7: the null case, the no-label middle-tokens
case, the Patient-label case, and a label-branch rejection on an empty test
type, all at concrete subjects. -/
theorem claim_C7_witness :
    parse_medical_subject "Hello world no markers" = none ∧
    parse_medical_subject "REQ9 fancy scan John Doe" =
      some ⟨"REQ9", "fancy scan", "John Doe"⟩ ∧
    parse_medical_subject "See REQ7 MRI results Patient: Bob Smith" =
      some ⟨"REQ7", "MRI results", "Bob Smith"⟩ ∧
    parse_medical_subject "REQ5 Patient: Bob Smith" = none := by
  refine ⟨?_, ?_, ?_, ?_⟩
  · exact claim_C7_amended.1 "Hello world no markers" (by decide) (by decide)
      (by decide) (by decide)
  · have h := claim_C7_amended.2.1 "REQ9 fancy scan John Doe"
      ⟨0, "REQ9".data, []⟩ (pySplitWs "REQ9 fancy scan John Doe".data) 0
      (List.intercalate [' ']
        (((pySplitWs "REQ9 fancy scan John Doe".data).drop 1).take
          ((pySplitWs "REQ9 fancy scan John Doe".data).length - 2 - 1)))
      (by decide) (by decide) (by decide) (by decide) (by decide) rfl (by decide) rfl
      (by decide) (by decide) (by decide)
    rw [h]
    decide
  · have h := claim_C7_amended.2.2.1 "See REQ7 MRI results Patient: Bob Smith"
      ⟨4, "REQ7".data, []⟩
      ⟨21, "Patient: Bob Smith".data, [(1, "Bob Smith".data)]⟩
      "MRI results".data
      (by decide) (by decide) (by decide) (by decide) (by decide) (by decide) (by decide)
    rw [h]
    decide
  · exact claim_C7_amended.2.2.2.1 "REQ5 Patient: Bob Smith"
      ⟨0, "REQ5".data, []⟩
      ⟨5, "Patient: Bob Smith".data, [(1, "Bob Smith".data)]⟩
      (by decide) (by decide) (by decide) (by decide) (by decide) (by decide)

/-!
## Claim C10
-/

/-- Claim C10: The subject `"Meeting request for Friday lunch"` contains no
(case-sensitive) `REQ`-prefixed identifier, yet `parse` returns a non-null
result with `request_id` taken from inside the ordinary word "request",
because the fallback's `REQ[A-Z0-9]+` search is case-insensitive — so the
email is treated as medical. -/
theorem claim_C10 :
    parse_medical_subject "Meeting request for Friday lunch" =
      some ⟨"request", "for", "Friday lunch"⟩ ∧
    parse_medical_subject "Meeting request for Friday lunch" ≠ none ∧
    containsSub "REQ".data "Meeting request for Friday lunch".data = false := by
  refine ⟨by decide, by decide, by decide⟩

end Medmaestro
